import Mathlib

/-!
Shallow embedding of `src/utils.py` (training/evaluation/early-stopping
control loop with running-metric computation) and proofs about it.

Modelling conventions:
* Python `float` values are modelled by exact rationals `ℚ`; the single
  infinite value `float("inf")` used as the initial best score of the
  loss-minimizing early-stopping policy is modelled as `none` in
  `Option ℚ`, with the Python comparison `x > float("inf")` (always false
  for finite `x`) modelled by `pygt`.
* A model is an opaque parameter state plus the training/eval mode flag;
  `model(x)` forward passes and the loss criterion are opaque pure
  functions of the current model and the batch, the optimizer step is an
  opaque update of the parameters (`torch` is an external collaborator:
  forward/criterion read the parameters, only `optimizer.step` writes
  them; `model.eval()` / `model.train()` toggle only the mode flag and
  `model.to(device)` preserves parameter values).
* Python's `/` raises `ZeroDivisionError` on a zero divisor; `pydiv`
  models it with `Except`.
* A data loader is a finite list of batches; for the segmentation
  evaluator the per-batch prediction grid (`argmax` of the forward
  scores) and target grid are flattened pixel lists of class labels.
-/

namespace Utils

/-- Python float division by a length: `a / n` raises `ZeroDivisionError`
when `n = 0`. -/
def pydiv (a : ℚ) (n : ℕ) : Except String ℚ :=
  if n = 0 then Except.error "ZeroDivisionError" else Except.ok (a / n)

/-- The Python comparison `x > b` where `b : Option ℚ` is a float that may
be `float("inf")` (`none`): any finite `x` satisfies `x > inf = False`. -/
def pygt (x : ℚ) : Option ℚ → Bool
  | none => false
  | some b => decide (x > b)

/-- State of the `EarlyStopping` class (loss-minimizing variant),
`src/utils.py` lines 67–86.  `best_score` and `val_loss_min` start at
`float("inf")`, modelled as `none`. -/
structure EarlyStopping where
  patience : ℤ
  counter : ℤ
  best_score : Option ℚ
  val_loss_min : Option ℚ
  early_stop : Bool
deriving DecidableEq

/-- `EarlyStopping.__init__(patience)`. -/
def EarlyStopping.init (patience : ℤ) : EarlyStopping :=
  { patience := patience
    counter := 0
    best_score := none
    val_loss_min := none
    early_stop := false }

/-- `EarlyStopping.__call__(val_loss)`: on `val_loss > best_score`
increment the counter and set the stop flag once the counter reaches the
patience; otherwise record a new best and reset the counter. -/
def EarlyStopping.call (s : EarlyStopping) (val_loss : ℚ) : EarlyStopping :=
  if pygt val_loss s.best_score then
    let counter := s.counter + 1
    if counter ≥ s.patience then
      { s with counter := counter, early_stop := true }
    else
      { s with counter := counter }
  else
    { s with best_score := some val_loss, counter := 0 }

/-- State of the `EarlyStoppingForUnet` class (Dice-maximizing variant),
`src/utils.py` lines 88–109.  `best_score` starts at `0.`. -/
structure EarlyStoppingForUnet where
  patience : ℤ
  counter : ℤ
  best_score : ℚ
  val_loss_min : Option ℚ
  early_stop : Bool
deriving DecidableEq

/-- `EarlyStoppingForUnet.__init__(patience)`. -/
def EarlyStoppingForUnet.init (patience : ℤ) : EarlyStoppingForUnet :=
  { patience := patience
    counter := 0
    best_score := 0
    val_loss_min := none
    early_stop := false }

/-- `EarlyStoppingForUnet.__call__(dice)`: on `dice < best_score`
increment the counter and set the stop flag once the counter reaches the
patience; otherwise record a new best and reset the counter. -/
def EarlyStoppingForUnet.call (s : EarlyStoppingForUnet) (dice : ℚ) :
    EarlyStoppingForUnet :=
  if dice < s.best_score then
    let counter := s.counter + 1
    if counter ≥ s.patience then
      { s with counter := counter, early_stop := true }
    else
      { s with counter := counter }
  else
    { s with best_score := dice, counter := 0 }

/-- Feeding a sequence of scores, one call per epoch, to the
loss-minimizing policy. -/
def EarlyStopping.run (s : EarlyStopping) (scores : List ℚ) : EarlyStopping :=
  scores.foldl EarlyStopping.call s

/-- Feeding a sequence of scores, one call per epoch, to the
Dice-maximizing policy. -/
def EarlyStoppingForUnet.run (s : EarlyStoppingForUnet) (scores : List ℚ) :
    EarlyStoppingForUnet :=
  scores.foldl EarlyStoppingForUnet.call s

/-- A model as the Trainer/Evaluator sees it: opaque parameters `params`
of some type `P` together with the training/eval mode flag toggled by
`model.train()` / `model.eval()`. -/
structure Model (P : Type) where
  params : P
  training : Bool
deriving DecidableEq

/-- Pixelwise `(predictions == y).sum()` on flattened same-shape grids. -/
def countEq (p y : List ℕ) : ℕ :=
  (List.zip p y).countP fun q => q.1 == q.2

/-- Pixelwise `(predictions * y).sum()` on flattened same-shape grids. -/
def mulSum (p y : List ℕ) : ℕ :=
  (List.zip p y).foldl (fun a q => a + q.1 * q.2) 0

/-- Pixelwise `(predictions + y).sum()` on flattened same-shape grids. -/
def addSum (p y : List ℕ) : ℕ :=
  (List.zip p y).foldl (fun a q => a + (q.1 + q.2)) 0

/-- The `1e-8` guard added to the Dice denominator. -/
def diceEps : ℚ := 1 / 100000000

/-- `evaluate(model, criterion, data_loader, device)`, `src/utils.py`
lines 9–30: set the model to eval mode, accumulate
`criterion(model(x), y).item()` over every batch without gradient
tracking, and return the accumulated loss divided by the number of
batches.  `lossOf m b` is the opaque composition
`criterion(model(x), y).item()` of the forward pass and the loss
function on batch `b = (x, y)`; the returned model records the mode
change performed by `model.eval()`. -/
def evaluate {P β : Type} (lossOf : Model P → β → ℚ) (model : Model P)
    (data_loader : List β) : Model P × Except String ℚ :=
  let m : Model P := { model with training := false }
  let total_loss := data_loader.foldl (fun acc b => acc + lossOf m b) 0
  (m, pydiv total_loss data_loader.length)

/-- Running state of the loop of `evaluate_unet`: the loss accumulator
together with the statistics variables and the `dice` value as they
stand after the latest iteration. -/
structure UnetEvalState where
  total_loss : ℚ
  correct : ℕ
  total : ℕ
  intersection : ℕ
  denom : ℕ
  dice : ℚ
deriving DecidableEq

/-- One iteration of the loop of `evaluate_unet`, `src/utils.py`
lines 41–63.  Mirrors the source exactly: `correct`, `intersection`,
`denom` and `total` are re-bound to `0` at the top of every iteration
(lines 42–45) before the `+=` accumulations, and `dice` is recomputed
inside the loop from the current `intersection` and `denom`.
`predict m b` is the opaque `argmax(model(x), dim=1)` prediction grid
and `target b` the `y` grid of batch `b`, both flattened. -/
def unetEvalStep {P β : Type} (lossOf : Model P → β → ℚ)
    (predict : Model P → β → List ℕ) (target : β → List ℕ) (m : Model P)
    (st : UnetEvalState) (b : β) : UnetEvalState :=
  let correct : ℕ := 0
  let intersection : ℕ := 0
  let denom : ℕ := 0
  let total : ℕ := 0
  let p := predict m b
  let y := target b
  let total_loss := st.total_loss + lossOf m b
  let correct := correct + countEq p y
  let total := total + p.length
  let intersection := intersection + mulSum p y
  let denom := denom + addSum p y
  let dice := (2 * intersection : ℚ) / ((denom : ℚ) + diceEps)
  { total_loss := total_loss
    correct := correct
    total := total
    intersection := intersection
    denom := denom
    dice := dice }

/-- `evaluate_unet(model, criterion, data_loader, device)`,
`src/utils.py` lines 32–65: run the loop over every batch and return
`(total_loss / len(data_loader), correct / total, dice)`.  The final
division by `len(data_loader)` is evaluated first and raises
`ZeroDivisionError` on an empty loader (so the unbound `correct` of that
case is never read); `correct / total` is the accuracy of the statistics
variables as left by the last iteration.  The returned model records the
mode change of `model.eval()`; `model.to(device)` preserves parameter
values. -/
def evaluate_unet {P β : Type} (lossOf : Model P → β → ℚ)
    (predict : Model P → β → List ℕ) (target : β → List ℕ) (model : Model P)
    (data_loader : List β) : Model P × Except String (ℚ × ℚ × ℚ) :=
  let m : Model P := { model with training := false }
  let st := data_loader.foldl (unetEvalStep lossOf predict target m)
    { total_loss := 0, correct := 0, total := 0, intersection := 0
      denom := 0, dice := 0 }
  match pydiv st.total_loss data_loader.length with
  | Except.error e => (m, Except.error e)
  | Except.ok avg =>
      (m, Except.ok (avg, (st.correct : ℚ) / (st.total : ℚ), st.dice))

/-- One epoch of `train`, `src/utils.py` lines 161–185: set the model to
training mode; for every batch compute the loss from the current model
(`output = model(x)`, `batch_loss = criterion(output, y)`), then apply
one optimizer step to the parameters (`optStep`, the opaque effect of
`zero_grad` / `backward` / `optimizer.step()`), accumulating the batch
losses; divide by `len(train_loader)` (raising `ZeroDivisionError` on an
empty loader); then run `evaluate` on the validation loader.  Returns
the model after the epoch together with the epoch's mean training loss
and validation loss. -/
def trainEpoch {P β : Type} (lossOf : Model P → β → ℚ) (optStep : P → β → P)
    (train_loader val_loader : List β) (model : Model P) :
    Except String (Model P × ℚ × ℚ) :=
  let m : Model P := { model with training := true }
  let r := train_loader.foldl
    (fun (p : Model P × ℚ) b =>
      ({ p.1 with params := optStep p.1.params b }, p.2 + lossOf p.1 b))
    (m, 0)
  match pydiv r.2 train_loader.length with
  | Except.error e => Except.error e
  | Except.ok train_loss =>
      let er := evaluate lossOf r.1 val_loader
      match er.2 with
      | Except.error e => Except.error e
      | Except.ok val_loss => Except.ok (er.1, train_loss, val_loss)

/-- The epoch loop of `train`, `src/utils.py` lines 161–200, with the
remaining number of epochs as the recursion fuel: run one epoch, append
its mean training loss and validation loss to the histories, feed the
validation loss to the early-stopping policy when enabled, and break out
of the loop when the policy's stop flag is set. -/
def trainAux {P β : Type} (lossOf : Model P → β → ℚ) (optStep : P → β → P)
    (train_loader val_loader : List β) (do_early_stopping : Bool)
    (model : Model P) (es : EarlyStopping)
    (epoch_train_errors epoch_val_errors : List ℚ) :
    ℕ → Except String (Model P × List ℚ × List ℚ)
  | 0 => Except.ok (model, epoch_train_errors, epoch_val_errors)
  | Nat.succ k =>
      match trainEpoch lossOf optStep train_loader val_loader model with
      | Except.error e => Except.error e
      | Except.ok (m, train_loss, val_loss) =>
          let epoch_train_errors := epoch_train_errors ++ [train_loss]
          let epoch_val_errors := epoch_val_errors ++ [val_loss]
          let es := if do_early_stopping then es.call val_loss else es
          if do_early_stopping && es.early_stop then
            Except.ok (m, epoch_train_errors, epoch_val_errors)
          else
            trainAux lossOf optStep train_loader val_loader do_early_stopping
              m es epoch_train_errors epoch_val_errors k

/-- `train(model, optimizer, criterion, train_loader, val_loader, device,
do_early_stopping, patience, epochs, ...)`, `src/utils.py` lines
122–200: instantiate `EarlyStopping(patience)` and run the epoch loop,
returning the two history lists (`log_fn` is a pure side effect and is
not modelled). -/
def train {P β : Type} (lossOf : Model P → β → ℚ) (optStep : P → β → P)
    (train_loader val_loader : List β) (do_early_stopping : Bool)
    (patience : ℤ) (epochs : ℕ) (model : Model P) :
    Except String (Model P × List ℚ × List ℚ) :=
  trainAux lossOf optStep train_loader val_loader do_early_stopping model
    (EarlyStopping.init patience) [] [] epochs

/-- The stop flag of the loss-minimizing policy after feeding it a score
sequence from a given state. -/
def esStops (es : EarlyStopping) (scores : List ℚ) : Bool :=
  (es.run scores).early_stop

/-- The observable actions of the batch loop of
`train_unet_with_scheduler`, in source order: the forward pass, the
gradient reset, the backward pass, the optimizer step, and the scheduler
notification `scheduler.step(batch_loss.item())` carrying the batch loss
it was called with. -/
inductive TrainEvent where
  | forward
  | zero_grad
  | backward
  | optimizer_step
  | scheduler_step (loss : ℚ)
deriving DecidableEq

/-- Whether an event is a scheduler notification. -/
def TrainEvent.isSchedulerStep : TrainEvent → Bool
  | TrainEvent.scheduler_step _ => true
  | _ => false

/-- Running state of the batch loop of `train_unet_with_scheduler`:
the model, the epoch accumulators of `src/utils.py` lines 348–351 and
370–375, and the trace of observable actions performed so far. -/
structure UnetSchedState (P : Type) where
  model : Model P
  train_loss : ℚ
  train_correct_num : ℕ
  train_total : ℕ
  events : List TrainEvent
deriving DecidableEq

/-- One iteration of the batch loop of `train_unet_with_scheduler`,
`src/utils.py` lines 353–375: forward pass and loss from the current
model, `zero_grad`, `backward`, `optimizer.step()`, then — when a
scheduler is supplied — `scheduler.step(batch_loss.item())`; afterwards
the accuracy statistics are taken from the pre-step output
(`train_predictions = argmax(output)`) and the batch loss is
accumulated. -/
def unetSchedBatchStep {P β : Type} (lossOf : Model P → β → ℚ)
    (optStep : P → β → P) (predict : Model P → β → List ℕ)
    (target : β → List ℕ) (has_scheduler : Bool) (st : UnetSchedState P)
    (b : β) : UnetSchedState P :=
  let batch_loss := lossOf st.model b
  let p := predict st.model b
  let y := target b
  { model := { st.model with params := optStep st.model.params b }
    train_loss := st.train_loss + batch_loss
    train_correct_num := st.train_correct_num + countEq p y
    train_total := st.train_total + p.length
    events := st.events ++
      [TrainEvent.forward, TrainEvent.zero_grad, TrainEvent.backward,
       TrainEvent.optimizer_step] ++
      (if has_scheduler then [TrainEvent.scheduler_step batch_loss] else []) }

/-- The full batch loop of one epoch of `train_unet_with_scheduler`:
`model.train()` (line 347) followed by the loop over `train_loader`,
with zeroed accumulators and an empty trace. -/
def unetSchedEpochLoop {P β : Type} (lossOf : Model P → β → ℚ)
    (optStep : P → β → P) (predict : Model P → β → List ℕ)
    (target : β → List ℕ) (has_scheduler : Bool) (model : Model P)
    (train_loader : List β) : UnetSchedState P :=
  train_loader.foldl
    (unetSchedBatchStep lossOf optStep predict target has_scheduler)
    { model := { model with training := true }
      train_loss := 0
      train_correct_num := 0
      train_total := 0
      events := [] }

/-- The event trace the specification prescribes for the batch loop when
a scheduler is supplied: per batch, in order, forward pass, gradient
reset, backward pass, optimizer step, and exactly one scheduler
notification carrying that batch's loss, computed from the model as it
stood at that batch's forward pass. -/
def schedTraceSpec {P β : Type} (lossOf : Model P → β → ℚ)
    (optStep : P → β → P) : Model P → List β → List TrainEvent
  | _, [] => []
  | m, b :: bs =>
      [TrainEvent.forward, TrainEvent.zero_grad, TrainEvent.backward,
       TrainEvent.optimizer_step, TrainEvent.scheduler_step (lossOf m b)] ++
      schedTraceSpec lossOf optStep { m with params := optStep m.params b } bs

end Utils

namespace Utils

theorem EarlyStopping.call_mono_early_stop (s : EarlyStopping) (v : ℚ)
    (h : s.early_stop = true) : (s.call v).early_stop = true := by
  unfold EarlyStopping.call
  dsimp only
  split
  · split
    · rfl
    · simpa using h
  · simpa using h

theorem EarlyStoppingForUnet.unet_call_mono_early_stop (s : EarlyStoppingForUnet)
    (v : ℚ) (h : s.early_stop = true) : (s.call v).early_stop = true := by
  unfold EarlyStoppingForUnet.call
  dsimp only
  split
  · split
    · rfl
    · simpa using h
  · simpa using h

theorem EarlyStopping.run_mono_early_stop (scores : List ℚ) :
    ∀ s : EarlyStopping, s.early_stop = true →
      (s.run scores).early_stop = true := by
  induction scores with
  | nil => intro s h; simpa [EarlyStopping.run] using h
  | cons v rest ih =>
      intro s h
      have h1 := EarlyStopping.call_mono_early_stop s v h
      simpa [EarlyStopping.run] using ih (s.call v) h1

theorem EarlyStoppingForUnet.unet_run_mono_early_stop (scores : List ℚ) :
    ∀ s : EarlyStoppingForUnet, s.early_stop = true →
      (s.run scores).early_stop = true := by
  induction scores with
  | nil => intro s h; simpa [EarlyStoppingForUnet.run] using h
  | cons v rest ih =>
      intro s h
      have h1 := EarlyStoppingForUnet.unet_call_mono_early_stop s v h
      simpa [EarlyStoppingForUnet.run] using ih (s.call v) h1

theorem esStops_nil (es : EarlyStopping) : esStops es [] = es.early_stop := rfl

theorem esStops_cons (es : EarlyStopping) (v : ℚ) (l : List ℚ) :
    esStops es (v :: l) = esStops (es.call v) l := rfl

theorem trainEpoch_ok {P β : Type} (lossOf : Model P → β → ℚ) (optStep : P → β → P)
    (tl vl : List β) (m : Model P) (htl : tl ≠ []) (hvl : vl ≠ []) :
    ∃ m' t v, trainEpoch lossOf optStep tl vl m = Except.ok (m', t, v) := by
  have h1 : tl.length ≠ 0 := fun h => htl (List.length_eq_zero.mp h)
  have h2 : vl.length ≠ 0 := fun h => hvl (List.length_eq_zero.mp h)
  unfold trainEpoch evaluate pydiv
  simp only [if_neg h1, if_neg h2]
  exact ⟨_, _, _, rfl⟩

theorem trainAux_succ {P β : Type} (lossOf : Model P → β → ℚ) (optStep : P → β → P)
    (tl vl : List β) (des : Bool) (k : ℕ) (m m1 : Model P) (es : EarlyStopping)
    (tH vH : List ℚ) (t v : ℚ)
    (hep : trainEpoch lossOf optStep tl vl m = Except.ok (m1, t, v)) :
    trainAux lossOf optStep tl vl des m es tH vH (Nat.succ k) =
      (if des && (if des then es.call v else es).early_stop then
        Except.ok (m1, tH ++ [t], vH ++ [v])
      else
        trainAux lossOf optStep tl vl des m1 (if des then es.call v else es)
          (tH ++ [t]) (vH ++ [v]) k) := by
  simp only [trainAux, hep]

theorem trainAux_spec {P β : Type} (lossOf : Model P → β → ℚ) (optStep : P → β → P)
    (tl vl : List β) (des : Bool) (htl : tl ≠ []) (hvl : vl ≠ []) :
    ∀ (k : ℕ) (m : Model P) (es : EarlyStopping) (tH vH : List ℚ),
      ∃ m' a b,
        trainAux lossOf optStep tl vl des m es tH vH k =
          Except.ok (m', tH ++ a, vH ++ b) ∧
        a.length = b.length ∧ b.length ≤ k ∧
        (des = false → b.length = k) ∧
        (des = true → esStops es b = false → b.length = k) ∧
        (des = true → esStops es b = true →
          ∀ j : ℕ, j + 1 < b.length → esStops es (b.take (j + 1)) = false) := by
  intro k
  induction k with
  | zero =>
      intro m es tH vH
      refine ⟨m, [], [], by simp [trainAux], rfl, Nat.le_refl 0, fun _ => rfl,
        fun _ _ => rfl, ?_⟩
      intro _ _ j hj
      exact absurd hj (by simp only [List.length_nil]; omega)
  | succ k ih =>
      intro m es tH vH
      obtain ⟨m1, t, v, hep⟩ := trainEpoch_ok lossOf optStep tl vl m htl hvl
      rw [trainAux_succ lossOf optStep tl vl des k m m1 es tH vH t v hep]
      cases des with
      | false =>
          simp only [Bool.false_and, if_false, Bool.false_eq_true, if_neg]
          obtain ⟨m', a', b', heq, hab, hbk, hdf, hdt1, hdt2⟩ :=
            ih m1 es (tH ++ [t]) (vH ++ [v])
          refine ⟨m', t :: a', v :: b', ?_, by simp [hab],
            by simp only [List.length_cons]; omega, ?_, ?_, ?_⟩
          · rw [heq]; simp
          · intro _; simp [hdf rfl]
          · intro h; exact absurd h (by simp)
          · intro h; exact absurd h (by simp)
      | true =>
          simp only [Bool.true_and, if_pos]
          by_cases hstop : (es.call v).early_stop = true
          · rw [if_pos hstop]
            refine ⟨m1, [t], [v], rfl, rfl,
              by simp only [List.length_singleton]; omega, ?_, ?_, ?_⟩
            · intro h; exact absurd h (by simp)
            · intro _ hf
              rw [esStops_cons, esStops_nil, hstop] at hf
              exact absurd hf (by simp)
            · intro _ _ j hj
              exact absurd hj (by simp only [List.length_singleton]; omega)
          · rw [if_neg hstop]
            obtain ⟨m', a', b', heq, hab, hbk, hdf, hdt1, hdt2⟩ :=
              ih m1 (es.call v) (tH ++ [t]) (vH ++ [v])
            refine ⟨m', t :: a', v :: b', ?_, by simp [hab],
              by simp only [List.length_cons]; omega, ?_, ?_, ?_⟩
            · rw [heq]; simp
            · intro h; exact absurd h (by simp)
            · intro _ hf
              rw [esStops_cons] at hf
              simp [hdt1 rfl hf]
            · intro _ htrue j hj
              rw [esStops_cons] at htrue
              cases j with
              | zero =>
                  rw [List.take_succ_cons, List.take_zero, esStops_cons, esStops_nil]
                  exact Bool.not_eq_true _ ▸ (by simpa using hstop)
              | succ j' =>
                  rw [List.take_succ_cons, esStops_cons]
                  refine hdt2 rfl htrue j' ?_
                  simpa using Nat.lt_of_succ_lt_succ (by simpa using hj)

theorem trainBatchFold_uniform {P β : Type} (lossOf : Model P → β → ℚ)
    (optStep : P → β → P) (c : ℚ) :
    ∀ (tl : List β) (m : Model P) (acc : ℚ),
      (∀ (mm : Model P) (b : β), b ∈ tl → lossOf mm b = c) →
      (tl.foldl
        (fun (p : Model P × ℚ) b =>
          ({ p.1 with params := optStep p.1.params b }, p.2 + lossOf p.1 b))
        (m, acc)).2 = acc + tl.length * c := by
  intro tl
  induction tl with
  | nil => intro m acc _; simp
  | cons b bs ih =>
      intro m acc h
      have hb : lossOf m b = c := h m b (List.mem_cons_self b bs)
      have hrest : ∀ (mm : Model P) (b' : β), b' ∈ bs → lossOf mm b' = c :=
        fun mm b' hm => h mm b' (List.mem_cons_of_mem b hm)
      simp only [List.foldl_cons]
      rw [ih _ _ hrest, hb]
      simp only [List.length_cons]
      push_cast
      ring

theorem trainEpoch_uniform {P β : Type} (lossOf : Model P → β → ℚ)
    (optStep : P → β → P) (tl vl : List β) (c : ℚ) (m : Model P)
    (hc : ∀ (mm : Model P) (b : β), b ∈ tl → lossOf mm b = c)
    (htl : tl ≠ []) (hvl : vl ≠ []) :
    ∃ m' v, trainEpoch lossOf optStep tl vl m = Except.ok (m', c, v) := by
  have h1 : tl.length ≠ 0 := fun h => htl (List.length_eq_zero.mp h)
  have h2 : vl.length ≠ 0 := fun h => hvl (List.length_eq_zero.mp h)
  have hq : (tl.length : ℚ) ≠ 0 := by exact_mod_cast h1
  unfold trainEpoch evaluate pydiv
  simp only [if_neg h1, if_neg h2]
  rw [trainBatchFold_uniform lossOf optStep c tl _ 0 hc]
  rw [zero_add, mul_comm, mul_div_assoc, div_self hq, mul_one]
  exact ⟨_, _, rfl⟩

theorem trainAux_uniform {P β : Type} (lossOf : Model P → β → ℚ)
    (optStep : P → β → P) (tl vl : List β) (des : Bool) (c : ℚ)
    (hc : ∀ (mm : Model P) (b : β), b ∈ tl → lossOf mm b = c)
    (htl : tl ≠ []) (hvl : vl ≠ []) :
    ∀ (k : ℕ) (m : Model P) (es : EarlyStopping) (tH vH : List ℚ),
      ∃ m' a b,
        trainAux lossOf optStep tl vl des m es tH vH k =
          Except.ok (m', tH ++ a, vH ++ b) ∧
        ∀ t ∈ a, t = c := by
  intro k
  induction k with
  | zero =>
      intro m es tH vH
      exact ⟨m, [], [], by simp [trainAux], by simp⟩
  | succ k ih =>
      intro m es tH vH
      obtain ⟨m1, v, hep⟩ := trainEpoch_uniform lossOf optStep tl vl c m hc htl hvl
      rw [trainAux_succ lossOf optStep tl vl des k m m1 es tH vH c v hep]
      by_cases hbr : (des && (if des then es.call v else es).early_stop) = true
      · rw [if_pos hbr]
        refine ⟨m1, [c], [v], rfl, ?_⟩
        intro t ht
        simpa using ht
      · rw [if_neg hbr]
        obtain ⟨m', a', b', heq, hall⟩ :=
          ih m1 (if des then es.call v else es) (tH ++ [c]) (vH ++ [v])
        refine ⟨m', c :: a', v :: b', ?_, ?_⟩
        · rw [heq]; simp
        · intro t ht
          rcases List.mem_cons.mp ht with h | h
          · exact h
          · exact hall t h

theorem unetSchedFold_events {P β : Type} (lossOf : Model P → β → ℚ)
    (optStep : P → β → P) (predict : Model P → β → List ℕ)
    (target : β → List ℕ) :
    ∀ (tl : List β) (st : UnetSchedState P),
      (tl.foldl (unetSchedBatchStep lossOf optStep predict target true)
        st).events =
      st.events ++ schedTraceSpec lossOf optStep st.model tl := by
  intro tl
  induction tl with
  | nil => intro st; simp [schedTraceSpec]
  | cons b bs ih =>
      intro st
      simp only [List.foldl_cons]
      rw [ih]
      simp [unetSchedBatchStep, schedTraceSpec]

theorem schedTraceSpec_count {P β : Type} (lossOf : Model P → β → ℚ)
    (optStep : P → β → P) :
    ∀ (tl : List β) (m : Model P),
      ((schedTraceSpec lossOf optStep m tl).filter
        TrainEvent.isSchedulerStep).length = tl.length := by
  intro tl
  induction tl with
  | nil => intro m; simp [schedTraceSpec]
  | cons b bs ih =>
      intro m
      simp [schedTraceSpec, List.filter, TrainEvent.isSchedulerStep, ih]

theorem schedTraceSpec_after_opt_step {P β : Type} (lossOf : Model P → β → ℚ)
    (optStep : P → β → P) :
    ∀ (tl : List β) (m : Model P) (i : ℕ) (l : ℚ),
      (schedTraceSpec lossOf optStep m tl)[i]? =
        some (TrainEvent.scheduler_step l) →
      ∃ j, i = j + 1 ∧
        (schedTraceSpec lossOf optStep m tl)[j]? =
          some TrainEvent.optimizer_step := by
  intro tl
  induction tl with
  | nil => intro m i l h; simp [schedTraceSpec] at h
  | cons b bs ih =>
      intro m i l h
      rcases i with _ | _ | _ | _ | _ | i
      · simp [schedTraceSpec] at h
      · simp [schedTraceSpec] at h
      · simp [schedTraceSpec] at h
      · simp [schedTraceSpec] at h
      · exact ⟨3, rfl, by simp [schedTraceSpec]⟩
      · simp only [schedTraceSpec, List.cons_append, List.nil_append,
          List.getElem?_cons_succ] at h
        obtain ⟨j, hj, hos⟩ := ih _ (i) l h
        refine ⟨j + 5, by omega, ?_⟩
        simp only [schedTraceSpec, List.cons_append, List.nil_append,
          List.getElem?_cons_succ]
        exact hos

end Utils
namespace Utils

/-- Claim C1 (refuted, code bug): the spec says `evaluate_unet` accumulates
the correct-pixel count, the total-pixel count, the Dice intersection and
the Dice denominator across all batches of the pass.  The source re-binds
all four statistics variables to zero at the top of every loop iteration
(`src/utils.py` lines 42–45), so the returned accuracy and Dice reflect
only the last batch.  On the two-batch loader below (batch 1:
predictions `[1,1]`, targets `[1,0]`; batch 2: predictions `[1]`,
targets `[1]`) the code returns accuracy `1` and Dice `2/(2+1e-8)`,
whereas the across-all-batches accumulation of the claim yields accuracy
`2/3` and Dice `2*2/(5+1e-8)`, both different. -/
theorem evaluate_unet_last_batch_only :
    (evaluate_unet (P := Unit) (β := List ℕ × List ℕ) (fun _ _ => 0)
        (fun _ b => b.1) (fun b => b.2) ⟨(), true⟩
        [([1, 1], [1, 0]), ([1], [1])]).2 =
      Except.ok (0, 1, 2 / (2 + diceEps)) ∧
    ((countEq [1, 1] [1, 0] + countEq [1] [1] : ℚ) /
        ((([1, 1] : List ℕ).length + ([1] : List ℕ).length : ℕ) : ℚ) ≠ 1) ∧
    ((2 * ((mulSum [1, 1] [1, 0] + mulSum [1] [1] : ℕ) : ℚ)) /
        (((addSum [1, 1] [1, 0] + addSum [1] [1] : ℕ) : ℚ) + diceEps) ≠
      2 / (2 + diceEps)) := by
  refine ⟨?_, ?_, ?_⟩
  · norm_num [evaluate_unet, unetEvalStep, countEq, mulSum, addSum, pydiv,
      diceEps]
  · norm_num [countEq]
  · norm_num [mulSum, addSum, diceEps]

/-- Claim C2 (refuted): feeding the loss-minimizing `EarlyStopping` policy
with patience 2 the score sequence `[5, 4, 3, 3, 3]` never sets the stop
flag: the comparison `val_loss > best_score` is strict, so an equal score
takes the else branch, is recorded as the new best and resets the
counter; the flag is still unset after the 5th call. -/
theorem EarlyStopping_equal_scores_no_stop :
    ((EarlyStopping.init 2).run [5, 4, 3, 3, 3]).early_stop = false := by
  norm_num [EarlyStopping.run, EarlyStopping.init, EarlyStopping.call, pygt]

/-- Claim C2 (amended): with patience 2, the stop flag requires two calls
with scores strictly worse than the best: on `[5, 4, 3, 4, 4]` the flag
becomes true exactly after the 5th call and not before. -/
theorem EarlyStopping_stop_after_fifth_amended :
    ((EarlyStopping.init 2).run [5]).early_stop = false ∧
    ((EarlyStopping.init 2).run [5, 4]).early_stop = false ∧
    ((EarlyStopping.init 2).run [5, 4, 3]).early_stop = false ∧
    ((EarlyStopping.init 2).run [5, 4, 3, 4]).early_stop = false ∧
    ((EarlyStopping.init 2).run [5, 4, 3, 4, 4]).early_stop = true := by
  refine ⟨?_, ?_, ?_, ?_, ?_⟩ <;>
    norm_num [EarlyStopping.run, EarlyStopping.init, EarlyStopping.call, pygt]

/-- Claim C3 (refuted): feeding the Dice-maximizing `EarlyStoppingForUnet`
policy with patience 2 the score sequence `[0.1, 0.3, 0.3, 0.3]` never
sets the stop flag: the comparison `dice < best_score` is strict, so an
equal Dice value takes the else branch and resets the counter; the flag
is still unset after the 4th call. -/
theorem EarlyStoppingForUnet_equal_dice_no_stop :
    ((EarlyStoppingForUnet.init 2).run
      [1 / 10, 3 / 10, 3 / 10, 3 / 10]).early_stop = false := by
  norm_num [EarlyStoppingForUnet.run, EarlyStoppingForUnet.init,
    EarlyStoppingForUnet.call]

/-- Claim C3 (amended): with patience 2, the stop flag requires two calls
with Dice values strictly below the best: on `[0.1, 0.3, 0.25, 0.25]` the
flag becomes true exactly after the 4th call and not before. -/
theorem EarlyStoppingForUnet_stop_after_fourth_amended :
    ((EarlyStoppingForUnet.init 2).run [1 / 10]).early_stop = false ∧
    ((EarlyStoppingForUnet.init 2).run [1 / 10, 3 / 10]).early_stop = false ∧
    ((EarlyStoppingForUnet.init 2).run
      [1 / 10, 3 / 10, 1 / 4]).early_stop = false ∧
    ((EarlyStoppingForUnet.init 2).run
      [1 / 10, 3 / 10, 1 / 4, 1 / 4]).early_stop = true := by
  refine ⟨?_, ?_, ?_, ?_⟩ <;>
    norm_num [EarlyStoppingForUnet.run, EarlyStoppingForUnet.init,
      EarlyStoppingForUnet.call]

/-- Claim C4 (confirmed): `train` returns two history lists of equal
length; the length is `epochs` when early stopping is disabled or never
triggers on the recorded validation losses, and when early stopping does
trigger the histories end at the stopping epoch (the policy fires on no
proper prefix of the recorded validation history, so the length is
`stop_epoch + 1`).  Nonempty training and validation loaders are required
for the mean-loss divisions to succeed. -/
theorem train_history_lengths {P β : Type} (lossOf : Model P → β → ℚ)
    (optStep : P → β → P) (tl vl : List β) (des : Bool) (pat : ℤ) (epochs : ℕ)
    (m : Model P) (htl : tl ≠ []) (hvl : vl ≠ []) :
    ∃ m' tH vH,
      train lossOf optStep tl vl des pat epochs m = Except.ok (m', tH, vH) ∧
      tH.length = vH.length ∧
      (des = false → tH.length = epochs) ∧
      (des = true → esStops (EarlyStopping.init pat) vH = false →
        tH.length = epochs) ∧
      (des = true → esStops (EarlyStopping.init pat) vH = true →
        tH.length ≤ epochs ∧
        ∀ j : ℕ, j + 1 < vH.length →
          esStops (EarlyStopping.init pat) (vH.take (j + 1)) = false) := by
  obtain ⟨m', a, b, heq, hab, hbk, hdf, hdt1, hdt2⟩ :=
    trainAux_spec lossOf optStep tl vl des htl hvl epochs m
      (EarlyStopping.init pat) [] []
  refine ⟨m', a, b, by simpa [train] using heq, hab, ?_, ?_, ?_⟩
  · intro h; rw [hab]; exact hdf h
  · intro h hf; rw [hab]; exact hdt1 h hf
  · intro h ht; exact ⟨hab ▸ hbk, hdt2 h ht⟩

/-- Witness for C4 at a concrete run: one batch per loader, constant loss,
no early stopping, 3 epochs. -/
theorem train_history_lengths_witness :
    ∃ (m' : Model Unit) (tH vH : List ℚ),
      train (P := Unit) (β := Unit) (fun _ _ => 5) (fun p _ => p) [()] [()]
        false 5 3 ⟨(), false⟩ = Except.ok (m', tH, vH) ∧
      tH.length = vH.length ∧
      (false = false → tH.length = 3) ∧
      (false = true → esStops (EarlyStopping.init 5) vH = false →
        tH.length = 3) ∧
      (false = true → esStops (EarlyStopping.init 5) vH = true →
        tH.length ≤ 3 ∧
        ∀ j : ℕ, j + 1 < vH.length →
          esStops (EarlyStopping.init 5) (vH.take (j + 1)) = false) :=
  train_history_lengths (fun _ _ => 5) (fun p _ => p) [()] [()] false 5 3
    ⟨(), false⟩ (by simp) (by simp)

/-- Claim C5 (confirmed): for both early-stopping policies, once the stop
flag is set no later sequence of calls — improving scores included —
resets it. -/
theorem early_stop_flag_persists :
    (∀ (s : EarlyStopping) (scores : List ℚ),
      s.early_stop = true → (s.run scores).early_stop = true) ∧
    (∀ (s : EarlyStoppingForUnet) (scores : List ℚ),
      s.early_stop = true → (s.run scores).early_stop = true) :=
  ⟨fun s scores h => EarlyStopping.run_mono_early_stop scores s h,
   fun s scores h => EarlyStoppingForUnet.unet_run_mono_early_stop scores s h⟩

/-- Witness for C5: stopped states of both policies stay stopped across
later calls, including calls with scores that improve on the best. -/
theorem early_stop_flag_persists_witness :
    (({ patience := 2, counter := 2, best_score := some 3, val_loss_min := none,
        early_stop := true } : EarlyStopping).run [1, 100]).early_stop = true ∧
    (({ patience := 2, counter := 2, best_score := 3 / 10, val_loss_min := none,
        early_stop := true } : EarlyStoppingForUnet).run
      [9 / 10, 1 / 100]).early_stop = true :=
  ⟨early_stop_flag_persists.1 _ [1, 100] rfl,
   early_stop_flag_persists.2 _ [9 / 10, 1 / 100] rfl⟩

/-- Claim C6 (confirmed): neither evaluator mutates the model parameters:
the only model mutation either performs is the `model.eval()` mode
toggle (and, in `evaluate_unet`, the value-preserving `model.to(device)`
placement), so the parameters of the returned model equal the
parameters passed in, whether or not the final division succeeds. -/
theorem evaluator_preserves_params {P β : Type} (lossOf : Model P → β → ℚ)
    (predict : Model P → β → List ℕ) (target : β → List ℕ) (model : Model P)
    (dl : List β) :
    (evaluate lossOf model dl).1.params = model.params ∧
    (evaluate_unet lossOf predict target model dl).1.params = model.params := by
  constructor
  · rfl
  · unfold evaluate_unet
    dsimp only
    split <;> rfl

/-- Claim C7 (refuted for the Dice variant): the Dice-maximizing policy
starts with `best_score = 0`, so a negative first score is treated as a
non-improvement: the counter becomes 1 and the best stays 0 instead of
recording the score. -/
theorem EarlyStoppingForUnet_negative_first_score_not_improvement :
    ((EarlyStoppingForUnet.init 2).call (-1)).counter = 1 ∧
    ((EarlyStoppingForUnet.init 2).call (-1)).best_score = 0 := by
  norm_num [EarlyStoppingForUnet.init, EarlyStoppingForUnet.call]

/-- Claim C7 (amended): on a freshly constructed policy the first call
counts as an improvement — recording the score as the new best, leaving
the counter at 0 and the stop flag unset — for every score in the
loss-minimizing variant (initial best `float("inf")`), and for every
nonnegative score in the Dice-maximizing variant (initial best `0`). -/
theorem first_call_improvement_amended (p : ℤ) (s : ℚ) :
    (((EarlyStopping.init p).call s).best_score = some s ∧
     ((EarlyStopping.init p).call s).counter = 0 ∧
     ((EarlyStopping.init p).call s).early_stop = false) ∧
    (0 ≤ s →
      ((EarlyStoppingForUnet.init p).call s).best_score = s ∧
      ((EarlyStoppingForUnet.init p).call s).counter = 0 ∧
      ((EarlyStoppingForUnet.init p).call s).early_stop = false) := by
  constructor
  · refine ⟨?_, ?_, ?_⟩ <;>
      simp [EarlyStopping.init, EarlyStopping.call, pygt]
  · intro hs
    refine ⟨?_, ?_, ?_⟩ <;>
      simp [EarlyStoppingForUnet.init, EarlyStoppingForUnet.call,
        not_lt.mpr hs]

/-- Witness for C7 (amended) at patience 3 and score 7/2. -/
theorem first_call_improvement_amended_witness :
    ((EarlyStoppingForUnet.init 3).call (7 / 2)).best_score = 7 / 2 ∧
    ((EarlyStopping.init 3).call (7 / 2)).best_score = some (7 / 2) :=
  ⟨((first_call_improvement_amended 3 (7 / 2)).2 (by norm_num)).1,
   (first_call_improvement_amended 3 (7 / 2)).1.1⟩

/-- Claim C8 (confirmed): when every batch of the training loader yields
the same loss value `c` (for every model state reached), the mean
training loss recorded for every epoch equals `c` exactly: the epoch sum
is `n * c` over the `n` batches and the division by `len(train_loader)`
recovers `c`. -/
theorem train_uniform_loss_mean {P β : Type} (lossOf : Model P → β → ℚ)
    (optStep : P → β → P) (tl vl : List β) (des : Bool) (pat : ℤ) (epochs : ℕ)
    (m : Model P) (c : ℚ)
    (hc : ∀ (mm : Model P) (b : β), b ∈ tl → lossOf mm b = c)
    (htl : tl ≠ []) (hvl : vl ≠ []) :
    ∃ m' tH vH,
      train lossOf optStep tl vl des pat epochs m = Except.ok (m', tH, vH) ∧
      ∀ t ∈ tH, t = c := by
  obtain ⟨m', a, b, heq, hall⟩ :=
    trainAux_uniform lossOf optStep tl vl des c hc htl hvl epochs m
      (EarlyStopping.init pat) [] []
  exact ⟨m', a, b, by simpa [train] using heq, hall⟩

/-- Witness for C8 at a concrete run: two batches of constant loss 5,
4 epochs with early stopping enabled. -/
theorem train_uniform_loss_mean_witness :
    ∃ (m' : Model Unit) (tH vH : List ℚ),
      train (P := Unit) (β := Unit) (fun _ _ => 5) (fun p _ => p) [(), ()] [()]
        true 2 4 ⟨(), false⟩ = Except.ok (m', tH, vH) ∧
      ∀ t ∈ tH, t = 5 :=
  train_uniform_loss_mean (fun _ _ => 5) (fun p _ => p) [(), ()] [()] true 2 4
    ⟨(), false⟩ 5 (fun _ _ _ => rfl) (by simp) (by simp)

/-- Claim C9 (confirmed): in the batch loop of `train_unet_with_scheduler`
with a scheduler supplied, the event trace of an epoch decomposes per
batch as forward pass, gradient reset, backward pass, optimizer step and
exactly one scheduler notification carrying that batch's loss; hence the
number of scheduler notifications equals the number of batches, and every
scheduler notification immediately follows an optimizer step. -/
theorem scheduler_notified_once_per_batch_after_step {P β : Type}
    (lossOf : Model P → β → ℚ) (optStep : P → β → P)
    (predict : Model P → β → List ℕ) (target : β → List ℕ) (model : Model P)
    (tl : List β) :
    (unetSchedEpochLoop lossOf optStep predict target true model tl).events =
      schedTraceSpec lossOf optStep { model with training := true } tl ∧
    (((unetSchedEpochLoop lossOf optStep predict target true model
        tl).events.filter TrainEvent.isSchedulerStep).length = tl.length) ∧
    (∀ (i : ℕ) (l : ℚ),
      (unetSchedEpochLoop lossOf optStep predict target true model
        tl).events[i]? = some (TrainEvent.scheduler_step l) →
      ∃ j, i = j + 1 ∧
        (unetSchedEpochLoop lossOf optStep predict target true model
          tl).events[j]? = some TrainEvent.optimizer_step) := by
  have hev : (unetSchedEpochLoop lossOf optStep predict target true model
      tl).events = schedTraceSpec lossOf optStep
        { model with training := true } tl := by
    unfold unetSchedEpochLoop
    rw [unetSchedFold_events]
    simp
  refine ⟨hev, ?_, ?_⟩
  · rw [hev]
    exact schedTraceSpec_count lossOf optStep tl _
  · intro i l h
    rw [hev] at h
    obtain ⟨j, hj, hos⟩ :=
      schedTraceSpec_after_opt_step lossOf optStep tl _ i l h
    refine ⟨j, hj, ?_⟩
    rwa [hev]

/-- Claim C10 (confirmed): on a loader with zero batches both evaluators
hit the unguarded final division `total_loss / len(data_loader)` and
raise `ZeroDivisionError` instead of returning a mean loss. -/
theorem evaluate_empty_loader_zero_division {P β : Type}
    (lossOf : Model P → β → ℚ) (predict : Model P → β → List ℕ)
    (target : β → List ℕ) (model : Model P) :
    (evaluate lossOf model ([] : List β)).2 =
      Except.error "ZeroDivisionError" ∧
    (evaluate_unet lossOf predict target model ([] : List β)).2 =
      Except.error "ZeroDivisionError" :=
  ⟨rfl, rfl⟩

end Utils
